import Mathlib

/-!
Shallow embedding of the `spatial_docking` package
(spatial-needleman-wunsch): voxel grids, the placement scorer and
translation search of `alignment.py`, the Boltzmann reweighting of
`boltzmann.py`, the Pareto filter of `pareto.py`, the torsion-state
enumerator of `conformers.py`, and the `Voxel` validation and
`SpatialDocking.align` call of `core.py`.

Python dictionaries are modelled as association lists in insertion
order; float arithmetic is idealised over `ℚ`/`ℝ`; `float('-inf')` is
modelled as `⊥ : EReal`.
-/

namespace SpatialDocking

/-- A 3-D coordinate key `(x, y, z)` of a voxel grid (Python float triples,
idealised as rationals). -/
abbrev Pos : Type := ℚ × ℚ × ℚ

/-- `core.py` `Voxel` dataclass: position, chemical property tag,
accessibility, flexibility, optional residue tag. -/
structure Voxel where
  position : Pos
  property_type : String
  accessibility : ℚ := 1
  flexibility : ℚ := 1/2
  nearby_residue : Option String := none
deriving DecidableEq, Repr

/-- `Voxel.__post_init__` validation of `core.py`: accessibility and
flexibility must be in `[0, 1]`, else `ValueError`. -/
def mkVoxel (position : Pos) (property_type : String)
    (accessibility flexibility : ℚ) (nearby_residue : Option String) :
    Except String Voxel :=
  if ¬ (0 ≤ accessibility ∧ accessibility ≤ 1) then
    Except.error "Accessibility must be between 0.0 and 1.0"
  else if ¬ (0 ≤ flexibility ∧ flexibility ≤ 1) then
    Except.error "Flexibility must be between 0.0 and 1.0"
  else
    Except.ok ⟨position, property_type, accessibility, flexibility, nearby_residue⟩

/-- A voxel grid: Python `dict` from position to voxel, as an association
list in insertion order. -/
abbrev Grid : Type := List (Pos × Voxel)

/-- A compatibility matrix: Python `dict` from ordered pairs of property
tags to scores. -/
abbrev CompatMatrix : Type := List ((String × String) × ℚ)

/-- Dictionary lookup on a grid (`cavity_grid[cavity_pos]` /
`cavity_pos in cavity_grid`). -/
def lookupGrid : Grid → Pos → Option Voxel
  | [], _ => none
  | (q, v) :: rest, p => if q = p then some v else lookupGrid rest p

/-- Dictionary lookup on a compatibility matrix. -/
def lookupMat : CompatMatrix → String × String → Option ℚ
  | [], _ => none
  | (q, x) :: rest, p => if q = p then some x else lookupMat rest p

/-- Componentwise translation
`tuple(mol_pos[i] + offset[i] for i in range(3))`. -/
def posAdd (p off : Pos) : Pos := (p.1 + off.1, p.2.1 + off.2.1, p.2.2 + off.2.2)

/-- Contribution of one overlapping voxel pair in
`calculate_placement_score`: the matrix value of the ordered pair
`(mol, cavity)`, falling back to the reversed pair, falling back to `0`. -/
def matchValue (m : CompatMatrix) (molProp cavProp : String) : ℚ :=
  match lookupMat m (molProp, cavProp) with
  | some x => x
  | none =>
    match lookupMat m (cavProp, molProp) with
    | some x => x
    | none => 0

/-- One iteration of the loop of `calculate_placement_score`, accumulating
`(score, overlap_count)`. -/
def scoreStep (cavity_grid : Grid) (offset : Pos) (m : CompatMatrix)
    (acc : ℚ × ℕ) (entry : Pos × Voxel) : ℚ × ℕ :=
  match lookupGrid cavity_grid (posAdd entry.1 offset) with
  | some cavity_voxel =>
      (acc.1 + matchValue m entry.2.property_type cavity_voxel.property_type, acc.2 + 1)
  | none => acc

/-- `alignment.py` `calculate_placement_score`: loop over the molecule
grid accumulating compatibility scores over overlaps, then normalise by
`score / overlap_count * sqrt(overlap_count)` when any overlap occurred. -/
noncomputable def calculate_placement_score (cavity_grid molecule_grid : Grid)
    (offset : Pos) (compatibility_matrix : CompatMatrix) : ℝ :=
  let sc := molecule_grid.foldl (scoreStep cavity_grid offset compatibility_matrix) (0, 0)
  if 0 < sc.2 then ((sc.1 : ℝ) / (sc.2 : ℕ)) * Real.sqrt (sc.2 : ℕ)
  else (sc.1 : ℝ)

/-- The list of per-overlap compatibility values of a placement, in
molecule-grid iteration order (specification-side view of the loop of
`calculate_placement_score`). -/
def overlapValues (cavity_grid molecule_grid : Grid) (offset : Pos)
    (m : CompatMatrix) : List ℚ :=
  molecule_grid.filterMap fun entry =>
    (lookupGrid cavity_grid (posAdd entry.1 offset)).map fun cavity_voxel =>
      matchValue m entry.2.property_type cavity_voxel.property_type

lemma scoreStep_foldl (cavity_grid : Grid) (offset : Pos) (m : CompatMatrix) :
    ∀ (mol : Grid) (s : ℚ) (c : ℕ),
      mol.foldl (scoreStep cavity_grid offset m) (s, c)
        = (s + (overlapValues cavity_grid mol offset m).sum,
           c + (overlapValues cavity_grid mol offset m).length) := by
  intro mol
  induction mol with
  | nil => intro s c; simp [overlapValues]
  | cons e rest ih =>
      intro s c
      simp only [List.foldl_cons, overlapValues, List.filterMap_cons]
      cases h : lookupGrid cavity_grid (posAdd e.1 offset) with
      | none =>
          simpa [scoreStep, h, overlapValues] using ih s c
      | some cv =>
          have := ih (s + matchValue m e.2.property_type cv.property_type) (c + 1)
          simp only [scoreStep, h, overlapValues, Option.map_some', List.sum_cons,
            List.length_cons] at this ⊢
          rw [this, Prod.mk.injEq]
          constructor
          · ring
          · omega

/-- `calculate_placement_score` equals the specification form: sum the
per-overlap values; if any overlap occurred return
`(sum / count) * sqrt count`, else `0`. -/
lemma calculate_placement_score_eq (cavity_grid molecule_grid : Grid)
    (offset : Pos) (m : CompatMatrix) :
    calculate_placement_score cavity_grid molecule_grid offset m
      = (if (overlapValues cavity_grid molecule_grid offset m).length ≠ 0 then
          ((overlapValues cavity_grid molecule_grid offset m).sum : ℝ)
            / ((overlapValues cavity_grid molecule_grid offset m).length : ℕ)
            * Real.sqrt ((overlapValues cavity_grid molecule_grid offset m).length : ℕ)
         else 0) := by
  unfold calculate_placement_score
  rw [scoreStep_foldl]
  simp only [zero_add, ne_eq]
  by_cases h : (overlapValues cavity_grid molecule_grid offset m).length = 0
  · simp [h, List.length_eq_zero.mp h]
  · simp [h, Nat.pos_of_ne_zero h]

/-- One iteration of the loop of `spatial_alignment`: replace the current
`(best_score, best_offset)` when the candidate's value strictly exceeds
it.  `best_score` lives in `EReal` because it starts at `float('-inf')`. -/
noncomputable def bestStep (f : Pos → ℝ) (acc : EReal × Pos) (k : Pos) : EReal × Pos :=
  if ((f k : ℝ) : EReal) > acc.1 then (((f k : ℝ) : EReal), k) else acc

/-- `alignment.py` `spatial_alignment`: iterate over the cavity grid's
keys, score each as a candidate offset plus `gap_penalty`, and keep the
strict-improvement maximum starting from `(-inf, (0, 0, 0))`. -/
noncomputable def spatial_alignment (cavity_grid molecule_grid : Grid)
    (compatibility_matrix : CompatMatrix) (gap_penalty : ℝ) : EReal × Pos :=
  (cavity_grid.map Prod.fst).foldl
    (bestStep fun k =>
      calculate_placement_score cavity_grid molecule_grid k compatibility_matrix + gap_penalty)
    (⊥, ((0 : ℚ), (0 : ℚ), (0 : ℚ)))

lemma bestFold_spec (f : Pos → ℝ) :
    ∀ (ks : List Pos) (b : EReal) (o : Pos),
      (ks.foldl (bestStep f) (b, o) = (b, o) ∧ ∀ k ∈ ks, ((f k : ℝ) : EReal) ≤ b)
      ∨ ∃ i : Fin ks.length,
          ks.foldl (bestStep f) (b, o) = (((f (ks.get i) : ℝ) : EReal), ks.get i)
          ∧ b < ((f (ks.get i) : ℝ) : EReal)
          ∧ (∀ j : Fin ks.length, f (ks.get j) ≤ f (ks.get i))
          ∧ (∀ j : Fin ks.length, (j : ℕ) < (i : ℕ) → f (ks.get j) < f (ks.get i)) := by
  intro ks
  induction ks with
  | nil => intro b o; exact Or.inl ⟨rfl, by simp⟩
  | cons k ks ih =>
      intro b o
      by_cases h : ((f k : ℝ) : EReal) > b
      · have hstep : (k :: ks).foldl (bestStep f) (b, o)
            = ks.foldl (bestStep f) (((f k : ℝ) : EReal), k) := by
          simp [List.foldl_cons, bestStep, h]
        rcases ih ((f k : ℝ) : EReal) k with ⟨heq, hle⟩ | ⟨i, heq, hlt, hmax, hfirst⟩
        · refine Or.inr ⟨⟨0, by simp⟩, ?_, h, ?_, ?_⟩
          · rw [hstep, heq]; rfl
          · rintro ⟨jv, hj⟩
            cases jv with
            | zero => exact le_refl _
            | succ j' =>
                have := hle (ks.get ⟨j', by simpa using hj⟩) (List.get_mem ks _ _)
                exact EReal.coe_le_coe_iff.mp this
          · rintro ⟨jv, hj⟩ hji
            simp at hji
        · refine Or.inr ⟨⟨(i : ℕ) + 1, by exact Nat.succ_lt_succ i.isLt⟩, ?_, ?_, ?_, ?_⟩
          · rw [hstep, heq]; rfl
          · exact lt_trans h hlt
          · rintro ⟨jv, hj⟩
            cases jv with
            | zero => exact le_of_lt (EReal.coe_lt_coe_iff.mp hlt)
            | succ j' => exact hmax ⟨j', by simpa using hj⟩
          · rintro ⟨jv, hj⟩ hji
            cases jv with
            | zero => exact EReal.coe_lt_coe_iff.mp hlt
            | succ j' =>
                exact hfirst ⟨j', by simpa using hj⟩ (by simpa using hji)
      · have hstep : (k :: ks).foldl (bestStep f) (b, o)
            = ks.foldl (bestStep f) (b, o) := by
          simp [List.foldl_cons, bestStep, h]
        have hkb : ((f k : ℝ) : EReal) ≤ b := not_lt.mp h
        rcases ih b o with ⟨heq, hle⟩ | ⟨i, heq, hlt, hmax, hfirst⟩
        · refine Or.inl ⟨by rw [hstep, heq], ?_⟩
          intro x hx
          rcases List.mem_cons.mp hx with hx | hx
          · exact hx ▸ hkb
          · exact hle x hx
        · refine Or.inr ⟨⟨(i : ℕ) + 1, by exact Nat.succ_lt_succ i.isLt⟩, ?_, hlt, ?_, ?_⟩
          · rw [hstep, heq]; rfl
          · rintro ⟨jv, hj⟩
            cases jv with
            | zero => exact le_of_lt (EReal.coe_lt_coe_iff.mp (lt_of_le_of_lt hkb hlt))
            | succ j' => exact hmax ⟨j', by simpa using hj⟩
          · rintro ⟨jv, hj⟩ hji
            cases jv with
            | zero => exact EReal.coe_lt_coe_iff.mp (lt_of_le_of_lt hkb hlt)
            | succ j' =>
                exact hfirst ⟨j', by simpa using hj⟩ (by simpa using hji)

/-- A score landscape: Python `dict` from position to raw score
(`all_scores` in `boltzmann.py`). -/
abbrev Landscape : Type := List (Pos × ℝ)

/-- `kT = 0.0019872041 * temperature` from `boltzmann.py`. -/
noncomputable def kT (temperature : ℝ) : ℝ := 0.0019872041 * temperature

/-- The `boltzmann_weights` dict of `boltzmann.py`: for each entry,
`energy = -score` and `weight = exp(-energy / kT)`. -/
noncomputable def boltzmannWeights (all_scores : Landscape) (temperature : ℝ) :
    List (Pos × ℝ) :=
  all_scores.map fun e => (e.1, Real.exp (-(-e.2) / kT temperature))

/-- The partition function `Z`: sum of all Boltzmann weights. -/
noncomputable def partitionZ (all_scores : Landscape) (temperature : ℝ) : ℝ :=
  ((boltzmannWeights all_scores temperature).map Prod.snd).sum

/-- `boltzmann.py` `boltzmann_ensemble_docking`: obtain the score
landscape from `spatial_alignment_all_paths`, form Boltzmann weights and
the partition function `Z`, and return `probability[pos] = weight / Z`. -/
noncomputable def boltzmann_ensemble_docking
    (spatial_alignment_all_paths : Grid → Grid → Landscape)
    (cavity_grid molecule_grid : Grid) (temperature : ℝ) : List (Pos × ℝ) :=
  let all_scores := spatial_alignment_all_paths cavity_grid molecule_grid
  (boltzmannWeights all_scores temperature).map fun e =>
    (e.1, e.2 / partitionZ all_scores temperature)

lemma sum_map_div (Z : ℝ) : ∀ l : List ℝ, (l.map (· / Z)).sum = l.sum / Z := by
  intro l
  induction l with
  | nil => simp
  | cons x xs ih => simp [ih, add_div]

lemma partitionZ_pos (all_scores : Landscape) (temperature : ℝ)
    (hne : all_scores ≠ []) : 0 < partitionZ all_scores temperature := by
  unfold partitionZ boltzmannWeights
  rcases all_scores with _ | ⟨e, rest⟩
  · exact absurd rfl hne
  · refine List.sum_pos _ ?_ (by simp)
    intro x hx
    simp only [List.map_map, List.mem_map] at hx
    rcases hx with ⟨y, _, rfl⟩
    exact Real.exp_pos _

/-- A named docking objective's scoring function
`(cavity_grid, molecule_grid, position) -> score` from `pareto.py`. -/
abbrev Objective : Type := Grid → Grid → Pos → ℚ

/-- The per-position score dict of `pareto_optimal_docking`
(`{name: func(cavity_grid, molecule_grid, position)}`), as the list of
values in the objectives' iteration order. -/
def evalScores (cavity_grid molecule_grid : Grid) (objectives : List Objective)
    (position : Pos) : List ℚ :=
  objectives.map fun func => func cavity_grid molecule_grid position

/-- The dominance test of `pareto_optimal_docking`:
`all(other_scores[k] >= scores[k]) and any(other_scores[k] > scores[k])`,
over score lists aligned by the objectives' iteration order. -/
def dominates (other_scores scores : List ℚ) : Bool :=
  ((other_scores.zip scores).all fun pr => decide (pr.2 ≤ pr.1))
    && ((other_scores.zip scores).any fun pr => decide (pr.2 < pr.1))

/-- The loop of `pareto_optimal_docking`: process positions in order,
append each `(position, scores)` to `all_solutions`, and append it to the
frontier unless some previously evaluated solution dominates it. -/
def paretoLoop (cavity_grid molecule_grid : Grid) (objectives : List Objective) :
    List Pos → List (Pos × List ℚ) → List (Pos × List ℚ) → List (Pos × List ℚ)
  | [], _, pareto_frontier => pareto_frontier
  | position :: rest, all_solutions, pareto_frontier =>
      paretoLoop cavity_grid molecule_grid objectives rest
        (all_solutions ++ [(position, evalScores cavity_grid molecule_grid objectives position)])
        (if all_solutions.any fun e =>
              dominates e.2 (evalScores cavity_grid molecule_grid objectives position) then
           pareto_frontier
         else
           pareto_frontier
             ++ [(position, evalScores cavity_grid molecule_grid objectives position)])

/-- `pareto.py` `pareto_optimal_docking` over the cavity grid's keys. -/
def pareto_optimal_docking (cavity_grid molecule_grid : Grid)
    (objectives : List Objective) : List (Pos × List ℚ) :=
  paretoLoop cavity_grid molecule_grid objectives (cavity_grid.map Prod.fst) [] []

lemma paretoLoop_spec (cavity_grid molecule_grid : Grid) (objectives : List Objective) :
    ∀ (rest : List Pos) (alls front : List (Pos × List ℚ)) (p : Pos) (s : List ℚ),
      (p, s) ∈ paretoLoop cavity_grid molecule_grid objectives rest alls front →
      (p, s) ∈ front
      ∨ (s = evalScores cavity_grid molecule_grid objectives p
         ∧ (∀ e ∈ alls, dominates e.2 s = false)
         ∧ ∃ pre post, rest = pre ++ p :: post
             ∧ ∀ q ∈ pre,
                 dominates (evalScores cavity_grid molecule_grid objectives q) s = false) := by
  intro rest
  induction rest with
  | nil => intro alls front p s h; exact Or.inl h
  | cons x rest ih =>
      intro alls front p s h
      rw [paretoLoop] at h
      by_cases hdom : (alls.any fun e =>
          dominates e.2 (evalScores cavity_grid molecule_grid objectives x)) = true
      · rw [if_pos hdom] at h
        rcases ih _ _ _ _ h with hin | ⟨hs, hall, pre, post, hsplit, hpre⟩
        · exact Or.inl hin
        · right
          refine ⟨hs, fun e he => hall e (List.mem_append_left _ he),
            x :: pre, post, by rw [hsplit]; rfl, ?_⟩
          intro q hq
          rcases List.mem_cons.mp hq with rfl | hq
          · have := hall (q, evalScores cavity_grid molecule_grid objectives q)
              (List.mem_append_right _ (by simp))
            simpa using this
          · exact hpre q hq
      · rw [if_neg hdom] at h
        rcases ih _ _ _ _ h with hin | ⟨hs, hall, pre, post, hsplit, hpre⟩
        · rcases List.mem_append.mp hin with hin | hin
          · exact Or.inl hin
          · right
            have hps : p = x ∧ s = evalScores cavity_grid molecule_grid objectives x := by
              simpa using hin
            rcases hps with ⟨rfl, rfl⟩
            have hallfalse : ∀ e ∈ alls,
                dominates e.2 (evalScores cavity_grid molecule_grid objectives p) = false := by
              intro e he
              have := (List.any_eq_false.mp (eq_false_of_ne_true hdom)) e he
              simpa using this
            exact ⟨rfl, hallfalse, [], rest, rfl, by simp⟩
        · right
          refine ⟨hs, fun e he => hall e (List.mem_append_left _ he),
            x :: pre, post, by rw [hsplit]; rfl, ?_⟩
          intro q hq
          rcases List.mem_cons.mp hq with rfl | hq
          · have := hall (q, evalScores cavity_grid molecule_grid objectives q)
              (List.mem_append_right _ (by simp))
            simpa using this
          · exact hpre q hq

/-- Modelled from the spec: `np.corrcoef` (NumPy, not part of the
repository source) computes the Pearson correlation whose denominator
contains the standard deviation of the predicted scores; this is the
variance numerator `sum((x - mean(xs))^2)` of that denominator, which is
zero exactly when all predictions coincide. -/
noncomputable def pearsonVarianceTerm (xs : List ℝ) : ℝ :=
  (xs.map fun x => (x - xs.sum / xs.length) ^ 2).sum

/-- The one-entry landscape `{(0,0,0): 1.0}`. -/
def oneLandscape : Landscape := [(((0 : ℚ), (0 : ℚ), (0 : ℚ)), (1 : ℝ))]

/-- The landscape `{(0,0,0): 1.0, (1,0,0): 1.0}` of concrete scenario 4. -/
def twoLandscape : Landscape :=
  [(((0 : ℚ), (0 : ℚ), (0 : ℚ)), (1 : ℝ)), (((1 : ℚ), (0 : ℚ), (0 : ℚ)), (1 : ℝ))]

/-- `itertools.product(angles, repeat=n)`: all length-`n` tuples over
`angles`, first coordinate varying slowest. -/
def productRepeat (angles : List ℚ) : ℕ → List (List ℚ)
  | 0 => [[]]
  | n + 1 => angles.flatMap fun a => (productRepeat angles n).map (a :: ·)

/-- The discretised angle list of `generate_torsion_states`:
`[i * (360 / torsion_steps) for i in range(torsion_steps)]`. -/
def torsionAngleList (torsion_steps : ℕ) : List ℚ :=
  (List.range torsion_steps).map fun i : ℕ => (i : ℚ) * (360 / (torsion_steps : ℚ))

/-- `conformers.py` `generate_torsion_states`: the full Cartesian product
of the discretised angles over all rotatable bonds. -/
def generate_torsion_states (n_bonds : ℕ) (torsion_steps : ℕ) : List (List ℚ) :=
  productRepeat (torsionAngleList torsion_steps) n_bonds

lemma productRepeat_length (angles : List ℚ) :
    ∀ n : ℕ, (productRepeat angles n).length = angles.length ^ n := by
  intro n
  induction n with
  | zero => rfl
  | succ n ih =>
      simp only [productRepeat, List.length_flatMap, Function.comp_def, List.length_map]
      rw [List.map_const', List.sum_replicate, ih, smul_eq_mul, pow_succ, mul_comm]

lemma productRepeat_mem (angles : List ℚ) :
    ∀ (n : ℕ) (t : List ℚ),
      t ∈ productRepeat angles n ↔ t.length = n ∧ ∀ a ∈ t, a ∈ angles := by
  intro n
  induction n with
  | zero =>
      intro t
      simp [productRepeat, List.length_eq_zero]
      rintro rfl
      simp
  | succ n ih =>
      intro t
      simp only [productRepeat, List.mem_flatMap, List.mem_map]
      constructor
      · rintro ⟨a, ha, t', ht', rfl⟩
        rcases (ih t').mp ht' with ⟨hlen, hall⟩
        refine ⟨by simp [hlen], ?_⟩
        intro x hx
        rcases List.mem_cons.mp hx with rfl | hx
        · exact ha
        · exact hall x hx
      · rintro ⟨hlen, hall⟩
        rcases t with _ | ⟨a, t'⟩
        · simp at hlen
        · refine ⟨a, hall a (by simp), t', ?_, rfl⟩
          refine (ih t').mpr ⟨by simpa using hlen, ?_⟩
          intro x hx
          exact hall x (List.mem_cons_of_mem a hx)

lemma productRepeat_nodup (angles : List ℚ) (hnd : angles.Nodup) :
    ∀ n : ℕ, (productRepeat angles n).Nodup := by
  intro n
  induction n with
  | zero => simp [productRepeat]
  | succ n ih =>
      refine List.nodup_flatMap.mpr ⟨?_, ?_⟩
      · intro a _
        exact ih.map fun t₁ t₂ h => by simpa using h
      · refine List.Pairwise.imp ?_ hnd
        intro a b hab
        intro t ht₁ ht₂
        rcases List.mem_map.mp ht₁ with ⟨t₁, _, rfl⟩
        rcases List.mem_map.mp ht₂ with ⟨t₂, _, heq⟩
        exact hab ((List.cons_eq_cons.mp heq).1).symm

lemma torsionAngleList_length (torsion_steps : ℕ) :
    (torsionAngleList torsion_steps).length = torsion_steps := by
  simp [torsionAngleList]

lemma torsionAngleList_mem (torsion_steps : ℕ) (a : ℚ) :
    a ∈ torsionAngleList torsion_steps
      ↔ ∃ i : ℕ, i < torsion_steps ∧ a = (i : ℚ) * (360 / (torsion_steps : ℚ)) := by
  simp only [torsionAngleList, List.mem_map, List.mem_range]
  constructor
  · rintro ⟨i, hi, rfl⟩; exact ⟨i, hi, rfl⟩
  · rintro ⟨i, hi, rfl⟩; exact ⟨i, hi, rfl⟩

lemma torsionAngleList_nodup (torsion_steps : ℕ) (h : 1 ≤ torsion_steps) :
    (torsionAngleList torsion_steps).Nodup := by
  have hs : ((torsion_steps : ℚ)) ≠ 0 := Nat.cast_ne_zero.mpr (by omega)
  have hc : (360 / (torsion_steps : ℚ)) ≠ 0 := div_ne_zero (by norm_num) hs
  refine List.Nodup.map ?_ (List.nodup_range torsion_steps)
  intro i j hij
  have := mul_right_cancel₀ hc hij
  exact_mod_cast this

/-- `scoring.py` `default_compatibility_matrix`. -/
def default_compatibility_matrix : CompatMatrix :=
  [(("hydrophobic", "hydrophobic"), 2),
   (("hydrophobic", "hydrophilic"), -3),
   (("hydrophobic", "polar"), -1),
   (("hydrophobic", "empty"), -1/2),
   (("hydrophilic", "hydrophilic"), 3/2),
   (("hydrophilic", "polar"), 1),
   (("hydrophilic", "charged_pos"), 1/2),
   (("hydrophilic", "charged_neg"), 1/2),
   (("polar", "polar"), 3/2),
   (("polar", "charged_pos"), 1),
   (("polar", "charged_neg"), 1),
   (("charged_pos", "charged_neg"), 3),
   (("charged_pos", "charged_pos"), -4),
   (("charged_neg", "charged_neg"), -4),
   (("empty", "empty"), 0)]

/-- The parameter names of the signature of `spatial_alignment` in
`alignment.py`:
`spatial_alignment(cavity_grid, molecule_grid, compatibility_matrix, gap_penalty=-1.0)`. -/
def spatial_alignment_params : List String :=
  ["cavity_grid", "molecule_grid", "compatibility_matrix", "gap_penalty"]

/-- The keyword-argument names at the call of `spatial_alignment` inside
`SpatialDocking.align` in `core.py` (which passes `max_translation=` and
never passes `gap_penalty=`). -/
def align_call_kwargs : List String :=
  ["cavity_grid", "molecule_grid", "compatibility_matrix", "max_translation"]

/-- The constructor configuration of the `SpatialDocking` class in
`core.py`. -/
structure SpatialDockingConfig where
  grid_spacing : ℚ := 1/2
  max_translation : ℤ := 10
  gap_penalty : ℚ := -1
  verbose : Bool := false

/-- `core.py` `SpatialDocking.align`: default the compatibility matrix,
then call `spatial_alignment` with the keyword arguments of
`align_call_kwargs`.  Python binds keyword arguments against the callee's
signature before executing its body, raising `TypeError` when a keyword
is not a parameter name; the success branch (unreachable here) would bind
`gap_penalty` to its default `-1.0` since the call never passes it. -/
noncomputable def SpatialDocking_align (_config : SpatialDockingConfig)
    (cavity_grid molecule_grid : Grid)
    (compatibility_matrix : Option CompatMatrix) : Except String (EReal × Pos) :=
  let mat := compatibility_matrix.getD default_compatibility_matrix
  if align_call_kwargs.all (fun k => spatial_alignment_params.contains k) then
    Except.ok (spatial_alignment cavity_grid molecule_grid mat (-1))
  else
    Except.error "TypeError: spatial_alignment() got an unexpected keyword argument"

/-- The single hydrophobic voxel at the origin of concrete scenario 1. -/
def hydroVoxel : Voxel :=
  { position := ((0 : ℚ), (0 : ℚ), (0 : ℚ)), property_type := "hydrophobic" }

/-- A cavity grid with the two keys `(0,0,0)` and `(1,0,0)`. -/
def twoKeyCavity : Grid :=
  [(((0 : ℚ), (0 : ℚ), (0 : ℚ)), hydroVoxel), (((1 : ℚ), (0 : ℚ), (0 : ℚ)), hydroVoxel)]

/-- A single objective scoring a position by its x coordinate. -/
def xObjective : List Objective := [fun _ _ position => position.1]

/-- The one-voxel grid `{(0,0,0): Voxel('hydrophobic')}` of concrete
scenario 1, used both as cavity and as molecule. -/
def hhGrid : Grid := [(((0 : ℚ), (0 : ℚ), (0 : ℚ)), hydroVoxel)]

/-- The matrix `{('hydrophobic','hydrophobic'): 2.0}` of concrete
scenario 1. -/
def hhMatrix : CompatMatrix := [(("hydrophobic", "hydrophobic"), 2)]

end SpatialDocking

namespace SpatialDockingClaims

open SpatialDocking

/-- C1: `calculate_placement_score` sums, over the molecule voxels whose
offset-translated position is a key of the cavity grid, the matrix value
of the ordered pair (molecule property, cavity property), else of the
reversed pair, else 0 (`overlapValues`); with at least one overlap the
result is `(sum / overlap_count) * sqrt(overlap_count)` and with zero
overlaps it is exactly 0.  In particular, with matrix
`{('hydrophobic','hydrophobic'): 2.0}` and a single overlapping
hydrophobic voxel pair at offset `(0,0,0)`, the score is `2.0`. -/
theorem placement_score_spec :
    (∀ (cavity_grid molecule_grid : Grid) (offset : Pos) (m : CompatMatrix),
      calculate_placement_score cavity_grid molecule_grid offset m
        = if (overlapValues cavity_grid molecule_grid offset m).length ≠ 0 then
            ((overlapValues cavity_grid molecule_grid offset m).sum : ℝ)
              / ((overlapValues cavity_grid molecule_grid offset m).length : ℕ)
              * Real.sqrt ((overlapValues cavity_grid molecule_grid offset m).length : ℕ)
          else 0)
    ∧ calculate_placement_score hhGrid hhGrid ((0 : ℚ), (0 : ℚ), (0 : ℚ)) hhMatrix = 2 := by
  refine ⟨calculate_placement_score_eq, ?_⟩
  have hov : overlapValues hhGrid hhGrid ((0 : ℚ), (0 : ℚ), (0 : ℚ)) hhMatrix = [2] := by
    norm_num [overlapValues, hhGrid, hhMatrix, hydroVoxel, List.filterMap_cons,
      posAdd, lookupGrid, lookupMat, matchValue]
  rw [calculate_placement_score_eq, hov]
  norm_num [Real.sqrt_one]

/-- C2: `spatial_alignment` considers as candidate offsets exactly the
keys of the cavity grid, values each candidate at
`calculate_placement_score + gap_penalty`, and returns the maximum value
together with the first candidate (in key iteration order) attaining it;
on an empty cavity grid it returns `(-inf, (0, 0, 0))`. -/
theorem alignment_first_max (cavity_grid molecule_grid : Grid)
    (m : CompatMatrix) (gap_penalty : ℝ) :
    (cavity_grid = [] →
      spatial_alignment cavity_grid molecule_grid m gap_penalty
        = (⊥, ((0 : ℚ), (0 : ℚ), (0 : ℚ))))
    ∧ (cavity_grid ≠ [] →
      ∃ i : Fin (cavity_grid.map Prod.fst).length,
        spatial_alignment cavity_grid molecule_grid m gap_penalty
          = (((calculate_placement_score cavity_grid molecule_grid
                ((cavity_grid.map Prod.fst).get i) m + gap_penalty : ℝ) : EReal),
             (cavity_grid.map Prod.fst).get i)
        ∧ (∀ j : Fin (cavity_grid.map Prod.fst).length,
            calculate_placement_score cavity_grid molecule_grid
                ((cavity_grid.map Prod.fst).get j) m + gap_penalty
              ≤ calculate_placement_score cavity_grid molecule_grid
                ((cavity_grid.map Prod.fst).get i) m + gap_penalty)
        ∧ (∀ j : Fin (cavity_grid.map Prod.fst).length, (j : ℕ) < (i : ℕ) →
            calculate_placement_score cavity_grid molecule_grid
                ((cavity_grid.map Prod.fst).get j) m + gap_penalty
              < calculate_placement_score cavity_grid molecule_grid
                ((cavity_grid.map Prod.fst).get i) m + gap_penalty)) := by
  constructor
  · intro h; subst h; rfl
  · intro hne
    rcases bestFold_spec
        (fun k => calculate_placement_score cavity_grid molecule_grid k m + gap_penalty)
        (cavity_grid.map Prod.fst) ⊥ ((0 : ℚ), (0 : ℚ), (0 : ℚ)) with
      ⟨_, hle⟩ | ⟨i, heq, _, hmax, hfirst⟩
    · exfalso
      rcases cavity_grid with _ | ⟨e, rest⟩
      · exact hne rfl
      · exact ((EReal.bot_lt_coe _).not_le (hle e.1 (by simp)))
    · exact ⟨i, heq, hmax, hfirst⟩

/-- Witness for C2 at the one-voxel cavity of scenario 1, an empty
molecule grid, the empty matrix and `gap_penalty = -1`. -/
theorem alignment_first_max_witness :
    (hhGrid ≠ [])
    ∧ ∃ i : Fin (hhGrid.map Prod.fst).length,
        spatial_alignment hhGrid [] [] (-1)
          = (((calculate_placement_score hhGrid []
                ((hhGrid.map Prod.fst).get i) [] + (-1) : ℝ) : EReal),
             (hhGrid.map Prod.fst).get i)
        ∧ (∀ j : Fin (hhGrid.map Prod.fst).length,
            calculate_placement_score hhGrid [] ((hhGrid.map Prod.fst).get j) [] + (-1)
              ≤ calculate_placement_score hhGrid [] ((hhGrid.map Prod.fst).get i) [] + (-1))
        ∧ (∀ j : Fin (hhGrid.map Prod.fst).length, (j : ℕ) < (i : ℕ) →
            calculate_placement_score hhGrid [] ((hhGrid.map Prod.fst).get j) [] + (-1)
              < calculate_placement_score hhGrid [] ((hhGrid.map Prod.fst).get i) [] + (-1)) :=
  ⟨by simp [hhGrid], (alignment_first_max hhGrid [] [] (-1)).2 (by simp [hhGrid])⟩

/-- C9: the translation search is deterministic — two invocations of
`spatial_alignment` on identical inputs return identical results (the
embedding is a pure function of its four arguments). -/
theorem alignment_deterministic (cavity_grid molecule_grid : Grid)
    (m : CompatMatrix) (gap_penalty : ℝ) :
    spatial_alignment cavity_grid molecule_grid m gap_penalty
      = spatial_alignment cavity_grid molecule_grid m gap_penalty := rfl

/-- C5: for a non-empty landscape and positive temperature,
`boltzmann_ensemble_docking` computes `kT = 0.0019872041 * temperature`,
per-entry weight `exp(-(-score)/kT)`, partition function `Z` as the sum
of all weights, and returns `probability[pos] = weight / Z`; the returned
probabilities sum to exactly 1, hence to 1 within tolerance `1e-9`. -/
theorem boltzmann_normalisation (f : Grid → Grid → Landscape)
    (cavity_grid molecule_grid : Grid) (temperature : ℝ)
    (hne : f cavity_grid molecule_grid ≠ []) (_hT : 0 < temperature) :
    kT temperature = 0.0019872041 * temperature
    ∧ boltzmann_ensemble_docking f cavity_grid molecule_grid temperature
        = (f cavity_grid molecule_grid).map (fun e =>
            (e.1, Real.exp (-(-e.2) / kT temperature)
                    / partitionZ (f cavity_grid molecule_grid) temperature))
    ∧ ((boltzmann_ensemble_docking f cavity_grid molecule_grid temperature).map
        Prod.snd).sum = 1
    ∧ |((boltzmann_ensemble_docking f cavity_grid molecule_grid temperature).map
        Prod.snd).sum - 1| ≤ (1e-9 : ℝ) := by
  have hZ : 0 < partitionZ (f cavity_grid molecule_grid) temperature :=
    partitionZ_pos _ _ hne
  have hsum : ((boltzmann_ensemble_docking f cavity_grid molecule_grid temperature).map
      Prod.snd).sum = 1 := by
    unfold boltzmann_ensemble_docking
    rw [List.map_map]
    have hcomp :
        (Prod.snd ∘ fun e : Pos × ℝ =>
          (e.1, e.2 / partitionZ (f cavity_grid molecule_grid) temperature))
          = (fun x : ℝ => x / partitionZ (f cavity_grid molecule_grid) temperature)
              ∘ Prod.snd := rfl
    rw [hcomp, ← List.map_map, sum_map_div]
    exact div_self (ne_of_gt hZ)
  refine ⟨rfl, ?_, hsum, by rw [hsum]; norm_num⟩
  unfold boltzmann_ensemble_docking boltzmannWeights
  rw [List.map_map]
  rfl

/-- Witness for C5 at the one-entry landscape `{(0,0,0): 1.0}` and
temperature 300. -/
theorem boltzmann_normalisation_witness :
    ((fun _ _ => oneLandscape) ([] : Grid) ([] : Grid) ≠ [])
    ∧ (0 : ℝ) < 300
    ∧ (kT 300 = 0.0019872041 * 300
      ∧ boltzmann_ensemble_docking (fun _ _ => oneLandscape) [] [] 300
          = ((fun _ _ => oneLandscape) ([] : Grid) ([] : Grid)).map (fun e =>
              (e.1, Real.exp (-(-e.2) / kT 300)
                      / partitionZ ((fun _ _ => oneLandscape) ([] : Grid) ([] : Grid)) 300))
      ∧ ((boltzmann_ensemble_docking (fun _ _ => oneLandscape) [] [] 300).map
          Prod.snd).sum = 1
      ∧ |((boltzmann_ensemble_docking (fun _ _ => oneLandscape) [] [] 300).map
          Prod.snd).sum - 1| ≤ (1e-9 : ℝ)) :=
  ⟨by simp [oneLandscape], by norm_num,
   boltzmann_normalisation (fun _ _ => oneLandscape) [] [] 300
     (by simp [oneLandscape]) (by norm_num)⟩

/-- C6: Boltzmann reweighting is order-preserving — for entries of the
same landscape at the same positive temperature, a strictly higher raw
score yields a strictly higher returned probability and equal raw scores
yield equal probabilities. -/
theorem boltzmann_order_preserving (f : Grid → Grid → Landscape)
    (cavity_grid molecule_grid : Grid) (temperature : ℝ) (p q : Pos) (a b : ℝ)
    (hT : 0 < temperature) (hp : (p, a) ∈ f cavity_grid molecule_grid)
    (hq : (q, b) ∈ f cavity_grid molecule_grid) :
    ((p, Real.exp (-(-a) / kT temperature)
          / partitionZ (f cavity_grid molecule_grid) temperature)
        ∈ boltzmann_ensemble_docking f cavity_grid molecule_grid temperature)
    ∧ ((q, Real.exp (-(-b) / kT temperature)
          / partitionZ (f cavity_grid molecule_grid) temperature)
        ∈ boltzmann_ensemble_docking f cavity_grid molecule_grid temperature)
    ∧ (b < a →
        Real.exp (-(-b) / kT temperature)
            / partitionZ (f cavity_grid molecule_grid) temperature
          < Real.exp (-(-a) / kT temperature)
              / partitionZ (f cavity_grid molecule_grid) temperature)
    ∧ (a = b →
        Real.exp (-(-a) / kT temperature)
            / partitionZ (f cavity_grid molecule_grid) temperature
          = Real.exp (-(-b) / kT temperature)
              / partitionZ (f cavity_grid molecule_grid) temperature) := by
  have hkT : 0 < kT temperature := by
    unfold kT
    have h1 : (0 : ℝ) < 0.0019872041 := by norm_num
    exact mul_pos h1 hT
  have hZ : 0 < partitionZ (f cavity_grid molecule_grid) temperature :=
    partitionZ_pos _ _ (List.ne_nil_of_mem hp)
  refine ⟨?_, ?_, ?_, ?_⟩
  · exact List.mem_map_of_mem _ (List.mem_map_of_mem _ hp)
  · exact List.mem_map_of_mem _ (List.mem_map_of_mem _ hq)
  · intro hba
    have hexp : Real.exp (-(-b) / kT temperature) < Real.exp (-(-a) / kT temperature) := by
      apply Real.exp_lt_exp.mpr
      rw [neg_neg, neg_neg, div_eq_mul_inv, div_eq_mul_inv]
      exact mul_lt_mul_of_pos_right hba (inv_pos.mpr hkT)
    rw [div_eq_mul_inv, div_eq_mul_inv]
    exact mul_lt_mul_of_pos_right hexp (inv_pos.mpr hZ)
  · intro hab
    rw [hab]

/-- Witness for C6 at the landscape `{(0,0,0): 1.0, (1,0,0): 1.0}` of
concrete scenario 4 at temperature 300. -/
theorem boltzmann_order_preserving_witness :
    (0 : ℝ) < 300
    ∧ (((0 : ℚ), (0 : ℚ), (0 : ℚ)), (1 : ℝ)) ∈ (fun _ _ => twoLandscape) ([] : Grid) ([] : Grid)
    ∧ (((1 : ℚ), (0 : ℚ), (0 : ℚ)), (1 : ℝ)) ∈ (fun _ _ => twoLandscape) ([] : Grid) ([] : Grid)
    ∧ ((((0 : ℚ), (0 : ℚ), (0 : ℚ)), Real.exp (-(-(1 : ℝ)) / kT 300)
          / partitionZ ((fun _ _ => twoLandscape) ([] : Grid) ([] : Grid)) 300)
        ∈ boltzmann_ensemble_docking (fun _ _ => twoLandscape) [] [] 300)
    ∧ ((((1 : ℚ), (0 : ℚ), (0 : ℚ)), Real.exp (-(-(1 : ℝ)) / kT 300)
          / partitionZ ((fun _ _ => twoLandscape) ([] : Grid) ([] : Grid)) 300)
        ∈ boltzmann_ensemble_docking (fun _ _ => twoLandscape) [] [] 300)
    ∧ ((1 : ℝ) = (1 : ℝ) →
        Real.exp (-(-(1 : ℝ)) / kT 300)
            / partitionZ ((fun _ _ => twoLandscape) ([] : Grid) ([] : Grid)) 300
          = Real.exp (-(-(1 : ℝ)) / kT 300)
              / partitionZ ((fun _ _ => twoLandscape) ([] : Grid) ([] : Grid)) 300) := by
  have h := boltzmann_order_preserving (fun _ _ => twoLandscape) [] [] 300
    ((0 : ℚ), (0 : ℚ), (0 : ℚ)) ((1 : ℚ), (0 : ℚ), (0 : ℚ)) 1 1
    (by norm_num) (by simp [twoLandscape]) (by simp [twoLandscape])
  exact ⟨by norm_num, by simp [twoLandscape], by simp [twoLandscape],
    h.1, h.2.1, h.2.2.2⟩

/-- C4 counterexample: on the degenerate inputs the code returns the
sentinels the claim forbids instead of raising — `spatial_alignment` on
an empty cavity grid returns `(-inf, (0,0,0))` and
`boltzmann_ensemble_docking` on an empty landscape returns an empty
probability mapping. -/
theorem empty_input_sentinel_counterexample :
    spatial_alignment [] [] [] (-1) = ((⊥ : EReal), ((0 : ℚ), (0 : ℚ), (0 : ℚ)))
    ∧ boltzmann_ensemble_docking (fun _ _ => ([] : Landscape)) [] [] 300 = [] :=
  ⟨rfl, rfl⟩

/-- C4 (amended): none of the three degenerate inputs raises — the code
has no `EmptyInputError`.  `spatial_alignment` on an empty cavity grid
returns the sentinel `(-inf, (0,0,0))`, `boltzmann_ensemble_docking` on
an empty landscape returns an empty probability mapping, and with
identical predicted scores the variance term in the Pearson-correlation
denominator used by `update_weights` is zero (the division-by-zero /
NaN case of `np.corrcoef`, propagated silently). -/
theorem empty_inputs_return_sentinels :
    spatial_alignment [] [] [] (-1) = ((⊥ : EReal), ((0 : ℚ), (0 : ℚ), (0 : ℚ)))
    ∧ (∀ (temperature : ℝ) (cavity_grid molecule_grid : Grid),
        boltzmann_ensemble_docking (fun _ _ => ([] : Landscape))
          cavity_grid molecule_grid temperature = [])
    ∧ (∀ (n : ℕ) (c : ℝ), pearsonVarianceTerm (List.replicate n c) = 0) := by
  refine ⟨rfl, fun _ _ _ => rfl, ?_⟩
  intro n c
  rcases Nat.eq_zero_or_pos n with h | h
  · subst h
    simp [pearsonVarianceTerm]
  · have hn : (n : ℝ) ≠ 0 := Nat.cast_ne_zero.mpr (Nat.pos_iff_ne_zero.mp h)
    simp [pearsonVarianceTerm, List.map_replicate, List.sum_replicate, nsmul_eq_mul,
      mul_div_assoc]
    refine Or.inr ?_
    field_simp

/-- C7: for `n_bonds ≥ 0` and `torsion_steps ≥ 1`,
`generate_torsion_states` returns exactly `torsion_steps ^ n_bonds`
tuples, each of length `n_bonds` with every component drawn from the
angle set `{i * 360/torsion_steps : 0 ≤ i < torsion_steps}`, with every
such combination present exactly once. -/
theorem torsion_states_full_product (n_bonds torsion_steps : ℕ)
    (hsteps : 1 ≤ torsion_steps) :
    (generate_torsion_states n_bonds torsion_steps).length = torsion_steps ^ n_bonds
    ∧ (∀ t ∈ generate_torsion_states n_bonds torsion_steps,
        t.length = n_bonds
        ∧ ∀ a ∈ t, ∃ i : ℕ, i < torsion_steps ∧ a = (i : ℚ) * (360 / (torsion_steps : ℚ)))
    ∧ (∀ t : List ℚ, t.length = n_bonds →
        (∀ a ∈ t, ∃ i : ℕ, i < torsion_steps ∧ a = (i : ℚ) * (360 / (torsion_steps : ℚ))) →
        (generate_torsion_states n_bonds torsion_steps).count t = 1) := by
  refine ⟨?_, ?_, ?_⟩
  · rw [generate_torsion_states, productRepeat_length, torsionAngleList_length]
  · intro t ht
    rcases (productRepeat_mem _ _ t).mp ht with ⟨hlen, hall⟩
    exact ⟨hlen, fun a ha => (torsionAngleList_mem _ a).mp (hall a ha)⟩
  · intro t hlen hall
    have hmem : t ∈ generate_torsion_states n_bonds torsion_steps :=
      (productRepeat_mem _ _ t).mpr
        ⟨hlen, fun a ha => (torsionAngleList_mem _ a).mpr (hall a ha)⟩
    have hcount := List.count_eq_one_of_mem
      (productRepeat_nodup _ (torsionAngleList_nodup _ hsteps) n_bonds) hmem
    have hinst : (List.instBEq : BEq (List ℚ)) = instBEqOfDecidableEq :=
      lawful_beq_subsingleton _ _
    rw [List.count, hinst]
    exact hcount

/-- Witness for C7 at `n_bonds = 2`, `torsion_steps = 4`
(concrete scenario 3: 16 pairs over `{0, 90, 180, 270}`). -/
theorem torsion_states_full_product_witness :
    1 ≤ 4
    ∧ ((generate_torsion_states 2 4).length = 4 ^ 2
      ∧ (∀ t ∈ generate_torsion_states 2 4,
          t.length = 2 ∧ ∀ a ∈ t, ∃ i : ℕ, i < 4 ∧ a = (i : ℚ) * (360 / (4 : ℚ)))
      ∧ (∀ t : List ℚ, t.length = 2 →
          (∀ a ∈ t, ∃ i : ℕ, i < 4 ∧ a = (i : ℚ) * (360 / (4 : ℚ))) →
          (generate_torsion_states 2 4).count t = 1)) :=
  ⟨by norm_num, torsion_states_full_product 2 4 (by norm_num)⟩

/-- C3 counterexample: with cavity keys `(0,0,0)` then `(1,0,0)` and the
single objective "x coordinate", `pareto_optimal_docking` returns both
positions, yet the evaluated position `(1,0,0)` dominates the returned
position `(0,0,0)` — so a returned solution is dominated within the full
evaluated set.  (The code never removes an accepted solution when a
later-evaluated position dominates it.) -/
theorem pareto_dominated_member_counterexample :
    pareto_optimal_docking twoKeyCavity [] xObjective
      = [(((0 : ℚ), (0 : ℚ), (0 : ℚ)), ([0] : List ℚ)),
         (((1 : ℚ), (0 : ℚ), (0 : ℚ)), ([1] : List ℚ))]
    ∧ dominates (evalScores twoKeyCavity [] xObjective ((1 : ℚ), (0 : ℚ), (0 : ℚ)))
        (evalScores twoKeyCavity [] xObjective ((0 : ℚ), (0 : ℚ), (0 : ℚ))) = true := by
  constructor
  · norm_num [pareto_optimal_docking, paretoLoop, twoKeyCavity, evalScores,
      xObjective, dominates]
  · norm_num [dominates, evalScores, xObjective]

/-- C3 (amended): every solution returned by `pareto_optimal_docking`
carries the objective scores of its position and is non-dominated by
every position evaluated before it in the cavity grid's key iteration
order (the one-pass filter never compares against later positions). -/
theorem pareto_prefix_nondominated (cavity_grid molecule_grid : Grid)
    (objectives : List Objective) (p : Pos) (s : List ℚ)
    (hmem : (p, s) ∈ pareto_optimal_docking cavity_grid molecule_grid objectives) :
    s = evalScores cavity_grid molecule_grid objectives p
    ∧ ∃ pre post, cavity_grid.map Prod.fst = pre ++ p :: post
        ∧ ∀ q ∈ pre,
            dominates (evalScores cavity_grid molecule_grid objectives q) s = false := by
  rcases paretoLoop_spec cavity_grid molecule_grid objectives _ _ _ _ _ hmem with
    h | ⟨hs, _, pre, post, hsplit, hpre⟩
  · simp at h
  · exact ⟨hs, pre, post, hsplit, hpre⟩

/-- Witness for C3 (amended) at the two-key cavity and x-coordinate
objective: the returned solution `((1,0,0), [1])` is preceded only by
`(0,0,0)`, which does not dominate it. -/
theorem pareto_prefix_nondominated_witness :
    ((((1 : ℚ), (0 : ℚ), (0 : ℚ)), ([1] : List ℚ))
        ∈ pareto_optimal_docking twoKeyCavity [] xObjective)
    ∧ ([1] : List ℚ) = evalScores twoKeyCavity [] xObjective ((1 : ℚ), (0 : ℚ), (0 : ℚ))
    ∧ ∃ pre post, twoKeyCavity.map Prod.fst = pre ++ ((1 : ℚ), (0 : ℚ), (0 : ℚ)) :: post
        ∧ ∀ q ∈ pre,
            dominates (evalScores twoKeyCavity [] xObjective q) ([1] : List ℚ) = false := by
  have hmem : ((((1 : ℚ), (0 : ℚ), (0 : ℚ)), ([1] : List ℚ))
      ∈ pareto_optimal_docking twoKeyCavity [] xObjective) := by
    norm_num [pareto_optimal_docking, paretoLoop, twoKeyCavity, evalScores,
      xObjective, dominates]
  have h := pareto_prefix_nondominated twoKeyCavity [] xObjective
    ((1 : ℚ), (0 : ℚ), (0 : ℚ)) ([1] : List ℚ) hmem
  exact ⟨hmem, h.1, h.2⟩

/-- C8: constructing a `Voxel` with accessibility or flexibility outside
`[0, 1]` fails with a validation error at construction time, construction
with both inside `[0, 1]` succeeds, and a successful construction stores
the given values unclamped — hence every successfully constructed voxel
satisfies `0 ≤ accessibility ≤ 1` and `0 ≤ flexibility ≤ 1`. -/
theorem voxel_validation :
    (∀ (position : Pos) (property_type : String) (accessibility flexibility : ℚ)
        (nearby_residue : Option String) (v : Voxel),
      mkVoxel position property_type accessibility flexibility nearby_residue
          = Except.ok v →
        (0 ≤ v.accessibility ∧ v.accessibility ≤ 1
          ∧ 0 ≤ v.flexibility ∧ v.flexibility ≤ 1
          ∧ v.accessibility = accessibility ∧ v.flexibility = flexibility))
    ∧ (∀ (position : Pos) (property_type : String) (accessibility flexibility : ℚ)
        (nearby_residue : Option String),
      (0 ≤ accessibility ∧ accessibility ≤ 1) → (0 ≤ flexibility ∧ flexibility ≤ 1) →
        mkVoxel position property_type accessibility flexibility nearby_residue
          = Except.ok ⟨position, property_type, accessibility, flexibility, nearby_residue⟩)
    ∧ (∀ (position : Pos) (property_type : String) (accessibility flexibility : ℚ)
        (nearby_residue : Option String),
      (¬ (0 ≤ accessibility ∧ accessibility ≤ 1) ∨ ¬ (0 ≤ flexibility ∧ flexibility ≤ 1)) →
        ∃ msg, mkVoxel position property_type accessibility flexibility nearby_residue
          = Except.error msg) := by
  refine ⟨?_, ?_, ?_⟩
  · intro position property_type accessibility flexibility nearby_residue v hok
    unfold mkVoxel at hok
    by_cases ha : 0 ≤ accessibility ∧ accessibility ≤ 1
    · by_cases hf : 0 ≤ flexibility ∧ flexibility ≤ 1
      · simp only [ha, hf, not_true_eq_false, if_false, if_true, ite_false,
          ite_true, not_false_eq_true] at hok
        cases hok
        exact ⟨ha.1, ha.2, hf.1, hf.2, rfl, rfl⟩
      · simp [ha, hf] at hok
    · simp [ha] at hok
  · intro position property_type accessibility flexibility nearby_residue ha hf
    simp [mkVoxel, ha, hf]
  · intro position property_type accessibility flexibility nearby_residue h
    rcases h with ha | hf
    · exact ⟨"Accessibility must be between 0.0 and 1.0", by simp [mkVoxel, ha]⟩
    · by_cases ha : 0 ≤ accessibility ∧ accessibility ≤ 1
      · exact ⟨"Flexibility must be between 0.0 and 1.0", by simp [mkVoxel, ha, hf]⟩
      · exact ⟨"Accessibility must be between 0.0 and 1.0", by simp [mkVoxel, ha]⟩

/-- Witness for C8: a successful construction at `accessibility = 1/2`,
`flexibility = 1/2`, and a failing construction at `accessibility = 2`. -/
theorem voxel_validation_witness :
    ((0 ≤ (1/2 : ℚ) ∧ (1/2 : ℚ) ≤ 1)
      ∧ mkVoxel ((0 : ℚ), (0 : ℚ), (0 : ℚ)) "polar" (1/2) (1/2) none
          = Except.ok ⟨((0 : ℚ), (0 : ℚ), (0 : ℚ)), "polar", 1/2, 1/2, none⟩)
    ∧ (¬ (0 ≤ (2 : ℚ) ∧ (2 : ℚ) ≤ 1)
      ∧ ∃ msg, mkVoxel ((0 : ℚ), (0 : ℚ), (0 : ℚ)) "polar" 2 (1/2) none
          = Except.error msg) :=
  ⟨⟨by norm_num,
    voxel_validation.2.1 _ "polar" (1/2) (1/2) none (by norm_num) (by norm_num)⟩,
   ⟨by norm_num,
    voxel_validation.2.2 _ "polar" 2 (1/2) none (Or.inl (by norm_num))⟩⟩

/-- C10: for every configuration, cavity grid, molecule grid, and
optional compatibility matrix (including the default), the public entry
point `SpatialDocking.align` fails with a `TypeError` before producing a
result, because its call passes the keyword `max_translation` that the
signature of `spatial_alignment` does not accept; the call also never
passes `gap_penalty`, so the configured gap penalty is not forwarded. -/
theorem align_entry_point_type_error (config : SpatialDockingConfig)
    (cavity_grid molecule_grid : Grid)
    (compatibility_matrix : Option CompatMatrix) :
    SpatialDocking_align config cavity_grid molecule_grid compatibility_matrix
      = Except.error "TypeError: spatial_alignment() got an unexpected keyword argument"
    ∧ "max_translation" ∈ align_call_kwargs
    ∧ "max_translation" ∉ spatial_alignment_params
    ∧ "gap_penalty" ∉ align_call_kwargs := by
  refine ⟨?_, ?_, ?_, ?_⟩
  · unfold SpatialDocking_align
    rw [if_neg]
    simp [align_call_kwargs, spatial_alignment_params]
  · simp [align_call_kwargs]
  · simp [spatial_alignment_params]
  · simp [align_call_kwargs]

end SpatialDockingClaims
